import Mathlib

set_option maxHeartbeats 1000000

/-!
Verification of the layer-service core (`manager.rs`, `server.rs`) against its
specification.  Filesystem calls, the archive-header parser and the name codec
of the external store library are modelled as explicit environments/oracles;
everything else is a direct shallow embedding of the source.
-/

namespace LayerService

/-- Bytes of a file, one natural number per byte. -/
abbrev Bytes := List Nat

/-- A 160-bit layer name: five 32-bit words, as in `[u32; 5]` in `manager.rs`. -/
structure LayerName where
  w0 : Nat
  w1 : Nat
  w2 : Nat
  w3 : Nat
  w4 : Nat
deriving DecidableEq, Repr

/-- The error-kind distinction made by the code (`ErrorKind::NotFound` versus
anything else, `io::ErrorKind::Other` included). -/
inductive IoErr where
  | notFound
  | other
deriving DecidableEq, Repr

/-- A filesystem path, as its list of components. -/
abbrev Path := List String

/-- One lower-case hex digit. -/
def hexDigit (k : Nat) : Char :=
  if k < 10 then Char.ofNat (48 + k) else Char.ofNat (87 + k)

/-- Big-endian, zero-padded 8-digit lower-case hex rendering of a 32-bit word. -/
def hex8 (w : Nat) : List Char :=
  (List.range 8).map (fun i => hexDigit (w / 16 ^ (7 - i) % 16))

/-- Modelled from the spec: `terminus_store::storage::name_to_string` (external
crate), per section 3 of the spec the canonical textual form of a layer name is
the five words in big-endian hex, lower case, zero padded, 40 characters. -/
def nameChars (n : LayerName) : List Char :=
  hex8 n.w0 ++ hex8 n.w1 ++ hex8 n.w2 ++ hex8 n.w3 ++ hex8 n.w4

/-- Canonical 40-character name as a string. -/
def nameToString (n : LayerName) : String := ⟨nameChars n⟩

/-- The `&name[0..3]` fan-out component used by `primary_layer_file_path` and
`local_layer_file_path`. -/
def hexPre3 (n : LayerName) : String := ⟨(nameChars n).take 3⟩

/-- The `format!("{name}.larch")` file name. -/
def larchName (n : LayerName) : String := nameToString n ++ ".larch"

/-- Value of one hex character, as accepted by the canonical lower-case form. -/
def hexDigitVal (c : Char) : Option Nat :=
  if '0' ≤ c ∧ c ≤ '9' then some (c.toNat - 48)
  else if 'a' ≤ c ∧ c ≤ 'f' then some (c.toNat - 87)
  else none

/-- Accumulate hex digits big-endian; `none` on any non-hex character. -/
def parseHexChars (cs : List Char) : Option Nat :=
  cs.foldl
    (fun acc c =>
      match acc, hexDigitVal c with
      | some a, some v => some (a * 16 + v)
      | _, _ => none)
    (some 0)

/-- Modelled from the spec: `terminus_store::storage::string_to_name` (external
crate), parsing the canonical 40-hex-character form back into five words
(spec section 3). -/
def stringToName (cs : List Char) : Except Unit LayerName :=
  if cs.length = 40 then
    match parseHexChars (cs.take 8), parseHexChars ((cs.drop 8).take 8),
        parseHexChars ((cs.drop 16).take 8), parseHexChars ((cs.drop 24).take 8),
        parseHexChars ((cs.drop 32).take 8) with
    | some a, some b, some c, some d, some e => .ok ⟨a, b, c, d, e⟩
    | _, _, _, _, _ => .error ()
  else .error ()

/-- An open read handle: the file's bytes and the current stream position.
The tokio `File` opened by `file_reader` starts at position 0. -/
structure Reader where
  bytes : Bytes
  pos : Nat
deriving DecidableEq, Repr

/-- Outcome of the two filesystem calls `file_reader` makes on one path:
`tokio::fs::metadata` (the stat, yielding the size) and
`OpenOptions::open` (yielding the file's contents on success). -/
structure FileEnv where
  statRes : Except IoErr Nat
  openRes : Except IoErr Bytes

/-- The flags of `tokio::fs::OpenOptions` (same defaults as `std`): all false
until set. -/
structure OpenOptions where
  readFlag : Bool
  writeFlag : Bool
  appendFlag : Bool
  truncateFlag : Bool
  createFlag : Bool
  createNewFlag : Bool
deriving DecidableEq, Repr

/-- `OpenOptions::new()`: every flag off. -/
def newOpenOptions : OpenOptions :=
  ⟨false, false, false, false, false, false⟩

/-- The options built in `file_reader`: `options.create(false); options.read(true)`. -/
def fileReaderOptions : OpenOptions :=
  { newOpenOptions with createFlag := false, readFlag := true }

/-- Embedding of `LayerManager::file_reader` (manager.rs lines 47-67): stat the
file, mapping a NotFound stat to `Ok(None)` and surfacing other stat errors;
then open read-only, mapping a NotFound open to `Ok(None)` and surfacing other
open errors; on success return the size taken from the stat together with the
freshly opened handle (position 0). -/
def fileReader (fe : FileEnv) : Except IoErr (Option (Nat × Reader)) :=
  match fe.statRes with
  | .error e => if e = .notFound then .ok none else .error e
  | .ok size =>
    match fe.openRes with
    | .ok bs => .ok (some (size, ⟨bs, 0⟩))
    | .error e => if e = .notFound then .ok none else .error e

/-- C6: `file_reader` returns `Ok(None)` exactly when the stat or the
subsequent open fails with NotFound; every other stat/open failure is surfaced
unchanged; on success the size comes from the stat (not from the stream) and
the handle was opened with read enabled and neither create nor truncate. -/
theorem fileReader_error_taxonomy (fe : FileEnv) :
    (fileReader fe = .ok none ↔
      (fe.statRes = .error .notFound ∨
        ∃ n, fe.statRes = .ok n ∧ fe.openRes = .error .notFound))
    ∧ (∀ e, e ≠ .notFound → fe.statRes = .error e → fileReader fe = .error e)
    ∧ (∀ n e, e ≠ .notFound → fe.statRes = .ok n → fe.openRes = .error e →
        fileReader fe = .error e)
    ∧ (∀ n bs, fe.statRes = .ok n → fe.openRes = .ok bs →
        fileReader fe = .ok (some (n, ⟨bs, 0⟩)))
    ∧ (∀ e, fileReader fe = .error e →
        e ≠ .notFound ∧ (fe.statRes = .error e ∨ fe.openRes = .error e))
    ∧ fileReaderOptions.createFlag = false
    ∧ fileReaderOptions.truncateFlag = false
    ∧ fileReaderOptions.readFlag = true := by
  obtain ⟨s, o⟩ := fe
  refine ⟨?_, ?_, ?_, ?_, ?_, rfl, rfl, rfl⟩
  · cases s with
    | error e =>
      cases e <;> cases o with
      | error e2 => cases e2 <;> simp [fileReader]
      | ok bs => simp [fileReader]
    | ok n =>
      cases o with
      | error e2 => cases e2 <;> simp [fileReader]
      | ok bs => simp [fileReader]
  · intro e he hs
    subst hs
    cases e with
    | notFound => exact absurd rfl he
    | other => simp [fileReader]
  · intro n e he hs ho
    subst hs; subst ho
    cases e with
    | notFound => exact absurd rfl he
    | other => simp [fileReader]
  · intro n bs hs ho
    subst hs; subst ho
    rfl
  · intro e h
    cases s with
    | error e1 =>
      cases e1 with
      | notFound => simp [fileReader] at h
      | other =>
        simp [fileReader] at h
        subst h
        exact ⟨by simp, Or.inl rfl⟩
    | ok n =>
      cases o with
      | ok bs => simp [fileReader] at h
      | error e2 =>
        cases e2 with
        | notFound => simp [fileReader] at h
        | other =>
          simp [fileReader] at h
          subst h
          exact ⟨by simp, Or.inr rfl⟩

/-- Witness for C6: a concrete environment where stat succeeds with size 3 and
the open succeeds. -/
theorem fileReader_error_taxonomy_witness :
    fileReader ⟨.ok 3, .ok [10, 20, 30]⟩ = .ok (some (3, ⟨[10, 20, 30], 0⟩)) :=
  (fileReader_error_taxonomy ⟨.ok 3, .ok [10, 20, 30]⟩).2.2.2.1 3 [10, 20, 30] rfl rfl

/-- The four configured tier roots of `LayerManager` (manager.rs lines 23-29);
the work set is modelled separately where promotion is analysed. -/
structure Mgr where
  primaryRoot : Path
  localRoot : Path
  uploadRoot : Path
  scratchRoot : Path
deriving DecidableEq, Repr

/-- `primary_layer_file_path` (manager.rs lines 69-76): root, then the first 3
hex characters of the name, then `<name>.larch`. -/
def Mgr.primaryLayerFilePath (m : Mgr) (n : LayerName) : Path :=
  m.primaryRoot ++ [hexPre3 n, larchName n]

/-- `local_layer_file_path` (manager.rs lines 86-93). -/
def Mgr.localLayerFilePath (m : Mgr) (n : LayerName) : Path :=
  m.localRoot ++ [hexPre3 n, larchName n]

/-- `scratch_layer_file_path` (manager.rs lines 109-115): flat, no fan-out. -/
def Mgr.scratchLayerFilePath (m : Mgr) (n : LayerName) : Path :=
  m.scratchRoot ++ [larchName n]

/-- The tiers a read may consult. -/
inductive Tier where
  | primaryT
  | localT
deriving DecidableEq, Repr

/-- A background task handed to `tokio::spawn`. -/
inductive SpawnedTask where
  | tryCopy (n : LayerName)
deriving DecidableEq, Repr

/-- Synchronous side effects of a manager read operation: which tiers were
consulted in order, which background tasks were spawned, and which work-set
mutations the operation itself performed (none: only spawned tasks touch it). -/
structure ReadEffects where
  consulted : List Tier
  spawned : List SpawnedTask
  wsOps : List LayerName
deriving DecidableEq, Repr

/-- `spawn_cache_layer` (manager.rs lines 202-204): spawn one `try_copy_layer`
task for the layer. -/
def spawnCacheLayer (n : LayerName) : List SpawnedTask :=
  [.tryCopy n]

/-- Embedding of `get_layer_reader` (manager.rs lines 117-131) over a
filesystem environment assigning each path its stat/open outcomes.  Local tier
first; on local miss the primary tier; on a primary hit it spawns a cache task
via `spawn_cache_layer` and then a second `try_copy_layer` directly, and
returns the primary reader. -/
def Mgr.getLayerReader (m : Mgr) (env : Path → FileEnv) (n : LayerName) :
    Except IoErr (Option (Nat × Reader)) × ReadEffects :=
  match fileReader (env (m.localLayerFilePath n)) with
  | .error e => (.error e, ⟨[.localT], [], []⟩)
  | .ok (some sr) => (.ok (some sr), ⟨[.localT], [], []⟩)
  | .ok none =>
    match fileReader (env (m.primaryLayerFilePath n)) with
    | .error e => (.error e, ⟨[.localT, .primaryT], [], []⟩)
    | .ok (some sr) =>
      (.ok (some sr), ⟨[.localT, .primaryT], spawnCacheLayer n ++ [.tryCopy n], []⟩)
    | .ok none => (.ok none, ⟨[.localT, .primaryT], [], []⟩)

/-- C3: `get_layer` tiering.  On a local hit the local pair is returned, the
primary tier is never consulted, nothing is spawned and the work set is not
touched; on a local miss with a primary hit the primary pair is returned and a
background promotion for that layer is scheduled; on a miss in both tiers the
result is `Absent` (`Ok(None)`). -/
theorem getLayerReader_tiering (m : Mgr) (env : Path → FileEnv) (n : LayerName) :
    (∀ sz r, fileReader (env (m.localLayerFilePath n)) = .ok (some (sz, r)) →
      m.getLayerReader env n = (.ok (some (sz, r)), ⟨[.localT], [], []⟩))
    ∧ (∀ sz r, fileReader (env (m.localLayerFilePath n)) = .ok none →
        fileReader (env (m.primaryLayerFilePath n)) = .ok (some (sz, r)) →
        (m.getLayerReader env n).1 = .ok (some (sz, r))
        ∧ SpawnedTask.tryCopy n ∈ (m.getLayerReader env n).2.spawned
        ∧ (m.getLayerReader env n).2.wsOps = [])
    ∧ (fileReader (env (m.localLayerFilePath n)) = .ok none →
        fileReader (env (m.primaryLayerFilePath n)) = .ok none →
        m.getLayerReader env n = (.ok none, ⟨[.localT, .primaryT], [], []⟩)) := by
  refine ⟨?_, ?_, ?_⟩
  · intro sz r hl
    simp [Mgr.getLayerReader, hl]
  · intro sz r hl hp
    simp [Mgr.getLayerReader, hl, hp, spawnCacheLayer]
  · intro hl hp
    simp [Mgr.getLayerReader, hl, hp]

/-- Witness for C3: local tier holds 5 bytes, the local hit is served with no
spawns and no work-set activity.  The environment stats every path at size 5
with content `[104, 101, 108, 108, 111]`. -/
theorem getLayerReader_tiering_witness :
    (⟨["p"], ["l"], ["u"], ["s"]⟩ : Mgr).getLayerReader
        (fun _ => ⟨.ok 5, .ok [104, 101, 108, 108, 111]⟩) ⟨0, 0, 0, 0, 0⟩ =
      (.ok (some (5, ⟨[104, 101, 108, 108, 111], 0⟩)), ⟨[.localT], [], []⟩) :=
  (getLayerReader_tiering ⟨["p"], ["l"], ["u"], ["s"]⟩
      (fun _ => ⟨.ok 5, .ok [104, 101, 108, 108, 111]⟩) ⟨0, 0, 0, 0, 0⟩).1
    5 ⟨[104, 101, 108, 108, 111], 0⟩ rfl

/-- C10: on a local miss with a primary hit, `get_layer_reader` spawns two
background promotion tasks for the same layer — one through
`spawn_cache_layer` and one directly — not one. -/
theorem getLayerReader_double_spawn (m : Mgr) (env : Path → FileEnv) (n : LayerName) :
    ∀ sz r, fileReader (env (m.localLayerFilePath n)) = .ok none →
      fileReader (env (m.primaryLayerFilePath n)) = .ok (some (sz, r)) →
      (m.getLayerReader env n).2.spawned = spawnCacheLayer n ++ [.tryCopy n]
      ∧ (m.getLayerReader env n).2.spawned = [.tryCopy n, .tryCopy n]
      ∧ ((m.getLayerReader env n).2.spawned).length = 2 := by
  intro sz r hl hp
  simp [Mgr.getLayerReader, hl, hp, spawnCacheLayer]

/-- Witness for C10: with the local tier empty (stat NotFound) and the
primary tier holding 2 bytes, exactly two identical promotion tasks are
spawned. -/
theorem getLayerReader_double_spawn_witness :
    ((⟨["p"], ["l"], ["u"], ["s"]⟩ : Mgr).getLayerReader
        (fun p => if p = (⟨["p"], ["l"], ["u"], ["s"]⟩ : Mgr).localLayerFilePath ⟨0, 0, 0, 0, 0⟩
          then ⟨.error .notFound, .error .notFound⟩ else ⟨.ok 2, .ok [7, 8]⟩)
        ⟨0, 0, 0, 0, 0⟩).2.spawned = [.tryCopy ⟨0, 0, 0, 0, 0⟩, .tryCopy ⟨0, 0, 0, 0, 0⟩] :=
  (getLayerReader_double_spawn ⟨["p"], ["l"], ["u"], ["s"]⟩
      (fun p => if p = (⟨["p"], ["l"], ["u"], ["s"]⟩ : Mgr).localLayerFilePath ⟨0, 0, 0, 0, 0⟩
        then ⟨.error .notFound, .error .notFound⟩ else ⟨.ok 2, .ok [7, 8]⟩)
      ⟨0, 0, 0, 0, 0⟩ 2 ⟨[7, 8], 0⟩ (by simp [fileReader])
      (by simp [fileReader, Mgr.localLayerFilePath, Mgr.primaryLayerFilePath])).2.1

/-- A mutable filesystem: contents of each regular file, by path. -/
def Fs : Type := Path → Option Bytes

/-- Point update of a filesystem. -/
def fsUpdate (fs : Fs) (p : Path) (v : Option Bytes) : Fs :=
  fun q => if q = p then v else fs q

/-- A filesystem operation performed by the upload/move code. -/
inductive FsOp where
  | createFile (p : Path)
  | writeAll (p : Path) (b : Bytes)
  | flushF (p : Path)
  | createDirAll (p : Path)
  | renameF (src dst : Path)
deriving DecidableEq, Repr

/-- Effect of one operation: a fresh temp file is empty, `write_all_buf`
appends at the end of the file, flush and directory creation leave file
contents alone, and rename moves the source file to the destination. -/
def applyOp (fs : Fs) : FsOp → Fs
  | .createFile p => fsUpdate fs p (some [])
  | .writeAll p b => fsUpdate fs p (some ((fs p).getD [] ++ b))
  | .flushF _ => fs
  | .createDirAll _ => fs
  | .renameF s d => fun q => if q = d then fs s else if q = s then none else fs q

/-- Apply a list of operations left to right. -/
def applyOps (fs : Fs) (ops : List FsOp) : Fs :=
  ops.foldl applyOp fs

/-- The paths whose file content an operation can change. -/
def opTouches : FsOp → List Path
  | .createFile p => [p]
  | .writeAll p _ => [p]
  | .flushF _ => []
  | .createDirAll _ => []
  | .renameF s d => [s, d]

/-- Errors of `upload_layer` (`Box<dyn Error>` in the source): temp-file
creation, the body stream, a disk write, the flush, or the final move. -/
inductive UpErr where
  | tempE (e : IoErr)
  | streamE
  | writeE (e : IoErr)
  | flushE (e : IoErr)
  | moveE (e : IoErr)
deriving DecidableEq, Repr

/-- An error of the hyper body stream. -/
inductive StreamErr where
  | hyperE
deriving DecidableEq, Repr

/-- The `while let Some(bytes) = stream.try_next().await?` loop of
`upload_layer`: drain the chunks in order into the temp file, aborting on a
stream error or on a failed `write_all_buf` (`wr i` is the outcome of the
write of chunk `i`). -/
def drainLoop (p : Path) (wr : Nat → Except IoErr Unit) :
    Nat → List (Except StreamErr Bytes) → Except UpErr Unit × List FsOp
  | _, [] => (.ok (), [])
  | _, .error _ :: _ => (.error .streamE, [])
  | i, .ok b :: rest =>
    match wr i with
    | .error e => (.error (.writeE e), [.writeAll p b])
    | .ok () =>
      let r := drainLoop p wr (i + 1) rest
      (r.1, .writeAll p b :: r.2)

/-- Embedding of `move_uploaded_layer` (manager.rs lines 158-173):
`create_dir_all` on the destination's parent, rename the source file onto
`primary(name)`, then `spawn_cache_layer`.  `dirRes`/`renameRes` are the
outcomes of the two filesystem calls. -/
def Mgr.moveUploadedLayer (m : Mgr) (dirRes renameRes : Except IoErr Unit)
    (n : LayerName) (src : Path) :
    Except IoErr Unit × List FsOp × List SpawnedTask :=
  let dest := m.primaryLayerFilePath n
  match dirRes with
  | .error e => (.error e, [], [])
  | .ok () =>
    match renameRes with
    | .error e => (.error e, [.createDirAll dest.dropLast], [])
    | .ok () =>
      (.ok (), [.createDirAll dest.dropLast, .renameF src dest], spawnCacheLayer n)

/-- Embedding of `upload_layer` (manager.rs lines 142-156): create a fresh
temp file named `tmpName` under the upload root, drain the body stream into
it, flush, then `move_uploaded_layer` it to `primary(n)`.  `tempRes`,
`flushRes`, `dirRes`, `renameRes` are the outcomes of the corresponding
filesystem calls.  Returns the result, the ordered filesystem-operation
trace, and the spawned background tasks. -/
def Mgr.uploadLayer (m : Mgr) (tmpName : String)
    (tempRes : Except IoErr Unit) (wr : Nat → Except IoErr Unit)
    (flushRes dirRes renameRes : Except IoErr Unit)
    (n : LayerName) (chunks : List (Except StreamErr Bytes)) :
    Except UpErr Unit × List FsOp × List SpawnedTask :=
  match tempRes with
  | .error e => (.error (.tempE e), [], [])
  | .ok () =>
    let tmp := m.uploadRoot ++ [tmpName]
    let dr := drainLoop tmp wr 0 chunks
    match dr.1 with
    | .error e => (.error e, .createFile tmp :: dr.2, [])
    | .ok () =>
      match flushRes with
      | .error e => (.error (.flushE e), .createFile tmp :: dr.2 ++ [.flushF tmp], [])
      | .ok () =>
        let mv := m.moveUploadedLayer dirRes renameRes n tmp
        (mv.1.mapError .moveE, .createFile tmp :: dr.2 ++ [.flushF tmp] ++ mv.2.1, mv.2.2)

/-- Rust `Path::parent`: syntactically remove the last component; none for the
root. -/
def parentPath (p : Path) : Option Path :=
  if p = [] then none else some p.dropLast

/-- The path-acceptance check of `move_uploaded_outside_layer` (manager.rs
lines 184-198): reject a path without a parent, canonicalize the parent and
the upload root through the `canon` oracle surfacing any error, and reject
unless the two canonical paths are equal. -/
def pathCheck (canon : Path → Except IoErr Path) (uploadRoot p : Path) :
    Except IoErr Unit :=
  match parentPath p with
  | none => .error .other
  | some pp =>
    match canon pp with
    | .error e => .error e
    | .ok c1 =>
      match canon uploadRoot with
      | .error e => .error e
      | .ok c2 => if c1 = c2 then .ok () else .error .other

/-- Embedding of `move_uploaded_outside_layer` (manager.rs lines 175-200):
run the path check; on rejection return the error with the filesystem
untouched and nothing done; on acceptance perform `move_uploaded_layer`. -/
def Mgr.moveUploadedOutsideLayer (m : Mgr) (canon : Path → Except IoErr Path)
    (fs : Fs) (dirRes renameRes : Except IoErr Unit) (n : LayerName) (p : Path) :
    Except IoErr Unit × Fs × List FsOp × List SpawnedTask :=
  match pathCheck canon m.uploadRoot p with
  | .error e => (.error e, fs, [], [])
  | .ok () =>
    let mv := m.moveUploadedLayer dirRes renameRes n p
    (mv.1, applyOps fs mv.2.1, mv.2.1, mv.2.2)

/-- A concrete model of `tokio::fs::canonicalize` over a symlink-free
filesystem whose existing directories are listed in `dirs`: resolve the
components left to right, `..` stepping up, requiring every intermediate
directory to exist. -/
def canonStep (dirs : List Path) (acc : Except IoErr Path) (comp : String) :
    Except IoErr Path :=
  match acc with
  | .error e => .error e
  | .ok c =>
    let c2 := if comp = ".." then c.dropLast else c ++ [comp]
    if c2 ∈ dirs then .ok c2 else .error .notFound

/-- Canonicalize an absolute path in the `dirs` model. -/
def canonModel (dirs : List Path) (p : Path) : Except IoErr Path :=
  p.foldl (canonStep dirs) (.ok [])

/-- C2 (amended): `move_uploaded_outside_layer` rejects (returns an error,
performs no filesystem operation, leaves the filesystem unchanged) whenever
the path check fails; it performs filesystem operations only when the check
passed; the check passes exactly when the canonicalized parent of `p` equals
the canonicalized upload root; and the only rename it can perform moves `p`
itself onto `primary(n)`. -/
theorem moveOutside_path_safety (m : Mgr) (canon : Path → Except IoErr Path)
    (fs : Fs) (dirRes renameRes : Except IoErr Unit) (n : LayerName) (p : Path) :
    (∀ e, pathCheck canon m.uploadRoot p = .error e →
      m.moveUploadedOutsideLayer canon fs dirRes renameRes n p = (.error e, fs, [], []))
    ∧ ((m.moveUploadedOutsideLayer canon fs dirRes renameRes n p).2.2.1 ≠ [] →
        pathCheck canon m.uploadRoot p = .ok ())
    ∧ (pathCheck canon m.uploadRoot p = .ok () ↔
        ∃ pp c, parentPath p = some pp ∧ canon pp = .ok c ∧ canon m.uploadRoot = .ok c)
    ∧ (∀ src dst,
        FsOp.renameF src dst ∈ (m.moveUploadedOutsideLayer canon fs dirRes renameRes n p).2.2.1 →
        src = p ∧ dst = m.primaryLayerFilePath n) := by
  refine ⟨?_, ?_, ⟨?_, ?_⟩, ?_⟩
  · intro e he
    simp [Mgr.moveUploadedOutsideLayer, he]
  · intro hne
    rcases h : pathCheck canon m.uploadRoot p with e | u
    · simp [Mgr.moveUploadedOutsideLayer, h] at hne
    · cases u; rfl
  · intro h
    rcases hpp : parentPath p with _ | pp
    · simp [pathCheck, hpp] at h
    · rcases hc1 : canon pp with e1 | c1
      · simp [pathCheck, hpp, hc1] at h
      · rcases hc2 : canon m.uploadRoot with e2 | c2
        · simp [pathCheck, hpp, hc1, hc2] at h
        · by_cases hcc : c1 = c2
          · exact ⟨pp, c2, rfl, by rw [hc1, hcc], rfl⟩
          · simp [pathCheck, hpp, hc1, hc2, hcc] at h
  · rintro ⟨pp, c, hpp, hc1, hc2⟩
    simp [pathCheck, hpp, hc1, hc2]
  · intro src dst hmem
    rcases h : pathCheck canon m.uploadRoot p with e | u
    · simp [Mgr.moveUploadedOutsideLayer, h] at hmem
    · cases u
      rcases dirRes with e1 | u1
      · simp [Mgr.moveUploadedOutsideLayer, h, Mgr.moveUploadedLayer] at hmem
      · cases u1
        rcases renameRes with e2 | u2
        · simp [Mgr.moveUploadedOutsideLayer, h, Mgr.moveUploadedLayer] at hmem
        · cases u2
          simp [Mgr.moveUploadedOutsideLayer, h, Mgr.moveUploadedLayer] at hmem
          exact hmem

/-- Directory structure for the concrete counterexample filesystem: the root,
`/data`, and the upload root `/data/upload` exist; no symlinks. -/
def cexDirs : List Path := [[], ["data"], ["data", "upload"]]

/-- A path containing a `..` segment whose parent still canonicalizes to the
upload root. -/
def cexP : Path := ["data", "..", "data", "upload", "f.larch"]

/-- Manager whose upload root is `/data/upload`. -/
def cexMgr : Mgr := ⟨["primarydir"], ["localdir"], ["data", "upload"], ["scratchdir"]⟩

/-- Counterexample to C2 as stated: `cexP` contains `..`, yet
`move_uploaded_outside_layer` accepts it and performs the move, because its
parent `/data/../data/upload` canonicalizes to the upload root. -/
theorem moveOutside_dotdot_accepted :
    (".." : String) ∈ cexP
    ∧ (cexMgr.moveUploadedOutsideLayer (canonModel cexDirs) (fun _ => none)
        (.ok ()) (.ok ()) ⟨0, 0, 0, 0, 0⟩ cexP).1 = .ok ()
    ∧ (cexMgr.moveUploadedOutsideLayer (canonModel cexDirs) (fun _ => none)
        (.ok ()) (.ok ()) ⟨0, 0, 0, 0, 0⟩ cexP).2.2.1 ≠ [] := by
  refine ⟨by simp [cexP], rfl, ?_⟩
  intro h
  simp [cexMgr, cexP, cexDirs, Mgr.moveUploadedOutsideLayer, pathCheck, parentPath,
    canonModel, canonStep, Mgr.moveUploadedLayer] at h

/-- Witness for C2 (amended) at a concrete rejected input: `/etc/passwd` has a
parent that fails to canonicalize inside the model filesystem, so the call is
rejected and the filesystem is untouched. -/
theorem moveOutside_path_safety_witness :
    pathCheck (canonModel cexDirs) cexMgr.uploadRoot ["etc", "passwd"] = .error .notFound
    ∧ cexMgr.moveUploadedOutsideLayer (canonModel cexDirs) (fun _ => none) (.ok ()) (.ok ())
        ⟨0, 0, 0, 0, 0⟩ ["etc", "passwd"] = (.error .notFound, (fun _ => none : Fs), [], []) :=
  ⟨rfl,
    (moveOutside_path_safety cexMgr (canonModel cexDirs) (fun _ => none) (.ok ()) (.ok ())
        ⟨0, 0, 0, 0, 0⟩ ["etc", "passwd"]).1 .notFound rfl⟩

/-- On an all-successful stream and disk, the drain loop writes exactly the
chunks, in order. -/
theorem drainLoop_all_ok (p : Path) (bs : List Bytes) : ∀ i,
    drainLoop p (fun _ => .ok ()) i (bs.map .ok) =
      (.ok (), bs.map (FsOp.writeAll p)) := by
  induction bs with
  | nil => intro i; rfl
  | cons b rest ih =>
    intro i
    simp only [List.map_cons, drainLoop, ih (i + 1)]

/-- An operation that does not touch `q` leaves the content at `q` alone. -/
theorem applyOp_untouched (fs : Fs) (op : FsOp) (q : Path)
    (h : q ∉ opTouches op) : applyOp fs op q = fs q := by
  cases op with
  | createFile p => simp [opTouches] at h; simp [applyOp, fsUpdate, h]
  | writeAll p b => simp [opTouches] at h; simp [applyOp, fsUpdate, h]
  | flushF p => rfl
  | createDirAll p => rfl
  | renameF s d =>
    simp [opTouches] at h
    obtain ⟨h1, h2⟩ := h
    simp [applyOp, h1, h2]

/-- A list of operations none of which touches `q` leaves `q` alone. -/
theorem applyOps_untouched (ops : List FsOp) : ∀ (fs : Fs) (q : Path),
    (∀ op ∈ ops, q ∉ opTouches op) → applyOps fs ops q = fs q := by
  induction ops with
  | nil => intro fs q _; rfl
  | cons op rest ih =>
    intro fs q h
    have h1 : q ∉ opTouches op := h op (by simp)
    have h2 : ∀ o ∈ rest, q ∉ opTouches o := fun o ho => h o (by simp [ho])
    calc applyOps fs (op :: rest) q = applyOps (applyOp fs op) rest q := rfl
      _ = applyOp fs op q := ih (applyOp fs op) q h2
      _ = fs q := applyOp_untouched fs op q h1

/-- Appending writes to a file holding `acc` leaves it holding `acc` followed
by the flattened chunks. -/
theorem applyOps_writeAll (tmp : Path) (bs : List Bytes) : ∀ (fs : Fs) (acc : Bytes),
    fs tmp = some acc →
    applyOps fs (bs.map (FsOp.writeAll tmp)) = fsUpdate fs tmp (some (acc ++ bs.flatten)) := by
  induction bs with
  | nil =>
    intro fs acc hacc
    funext q
    by_cases hq : q = tmp <;> simp [applyOps, fsUpdate, hq, hacc]
  | cons b rest ih =>
    intro fs acc hacc
    have step : applyOp fs (FsOp.writeAll tmp b) = fsUpdate fs tmp (some (acc ++ b)) := by
      simp [applyOp, fsUpdate, hacc]
    have hnext : fsUpdate fs tmp (some (acc ++ b)) tmp = some (acc ++ b) := by
      simp [fsUpdate]
    calc applyOps fs ((b :: rest).map (FsOp.writeAll tmp))
        = applyOps (applyOp fs (FsOp.writeAll tmp b)) (rest.map (FsOp.writeAll tmp)) := rfl
      _ = applyOps (fsUpdate fs tmp (some (acc ++ b))) (rest.map (FsOp.writeAll tmp)) := by
          rw [step]
      _ = fsUpdate (fsUpdate fs tmp (some (acc ++ b))) tmp (some ((acc ++ b) ++ rest.flatten)) :=
          ih _ _ hnext
      _ = fsUpdate fs tmp (some (acc ++ (b :: rest).flatten)) := by
          funext q
          by_cases hq : q = tmp <;> simp [fsUpdate, hq]

/-- C4: on a fully successful upload, `upload_layer` creates the temp file
under the upload root, writes the body chunks to it in order, flushes, creates
the fan-out directory and renames the temp file onto `primary(n)`, and spawns
a promotion; afterwards `primary(n)` holds exactly the streamed bytes (length
equal to the total bytes yielded), and at no intermediate point of the trace
does any path under the primary root other than `primary(n)` itself change. -/
theorem uploadLayer_durability (m : Mgr) (tmpName : String) (n : LayerName)
    (bs : List Bytes) (fs0 : Fs)
    (hsep : ∀ rest : Path, m.uploadRoot ++ [tmpName] ≠ m.primaryRoot ++ rest) :
    (m.uploadLayer tmpName (.ok ()) (fun _ => .ok ()) (.ok ()) (.ok ()) (.ok ()) n
        (bs.map .ok)).1 = .ok ()
    ∧ (m.uploadLayer tmpName (.ok ()) (fun _ => .ok ()) (.ok ()) (.ok ()) (.ok ()) n
        (bs.map .ok)).2.1 =
      FsOp.createFile (m.uploadRoot ++ [tmpName]) ::
        bs.map (FsOp.writeAll (m.uploadRoot ++ [tmpName])) ++
        [FsOp.flushF (m.uploadRoot ++ [tmpName]),
          FsOp.createDirAll (m.primaryLayerFilePath n).dropLast,
          FsOp.renameF (m.uploadRoot ++ [tmpName]) (m.primaryLayerFilePath n)]
    ∧ (m.uploadLayer tmpName (.ok ()) (fun _ => .ok ()) (.ok ()) (.ok ()) (.ok ()) n
        (bs.map .ok)).2.2 = [.tryCopy n]
    ∧ applyOps fs0
        (m.uploadLayer tmpName (.ok ()) (fun _ => .ok ()) (.ok ()) (.ok ()) (.ok ()) n
          (bs.map .ok)).2.1 (m.primaryLayerFilePath n) = some bs.flatten
    ∧ bs.flatten.length = (bs.map List.length).sum
    ∧ (∀ ops1 ops2,
        (m.uploadLayer tmpName (.ok ()) (fun _ => .ok ()) (.ok ()) (.ok ()) (.ok ()) n
          (bs.map .ok)).2.1 = ops1 ++ ops2 →
        ∀ q, (∃ rest, q = m.primaryRoot ++ rest) → q ≠ m.primaryLayerFilePath n →
          applyOps fs0 ops1 q = fs0 q) := by
  set tmp := m.uploadRoot ++ [tmpName] with htmp
  set dest := m.primaryLayerFilePath n with hdest
  have hdr := drainLoop_all_ok tmp bs 0
  have hops : (m.uploadLayer tmpName (.ok ()) (fun _ => .ok ()) (.ok ()) (.ok ()) (.ok ()) n
      (bs.map .ok)).2.1 =
      FsOp.createFile tmp :: bs.map (FsOp.writeAll tmp) ++
        [FsOp.flushF tmp, FsOp.createDirAll dest.dropLast, FsOp.renameF tmp dest] := by
    simp [Mgr.uploadLayer, hdr, Mgr.moveUploadedLayer]
  have hres : (m.uploadLayer tmpName (.ok ()) (fun _ => .ok ()) (.ok ()) (.ok ()) (.ok ()) n
      (bs.map .ok)).1 = .ok () := by
    simp [Mgr.uploadLayer, hdr, Mgr.moveUploadedLayer, Except.mapError]
  have hspawn : (m.uploadLayer tmpName (.ok ()) (fun _ => .ok ()) (.ok ()) (.ok ()) (.ok ()) n
      (bs.map .ok)).2.2 = [.tryCopy n] := by
    simp [Mgr.uploadLayer, hdr, Mgr.moveUploadedLayer, spawnCacheLayer]
  have hwrites := applyOps_writeAll tmp bs (fsUpdate fs0 tmp (some [])) []
    (by simp [fsUpdate])
  have hfinal : applyOps fs0
      (FsOp.createFile tmp :: bs.map (FsOp.writeAll tmp) ++
        [FsOp.flushF tmp, FsOp.createDirAll dest.dropLast, FsOp.renameF tmp dest])
      dest = some bs.flatten := by
    have e1 : applyOps fs0
        (FsOp.createFile tmp :: bs.map (FsOp.writeAll tmp) ++
          [FsOp.flushF tmp, FsOp.createDirAll dest.dropLast, FsOp.renameF tmp dest]) =
        applyOps (applyOps (fsUpdate fs0 tmp (some [])) (bs.map (FsOp.writeAll tmp)))
          [FsOp.flushF tmp, FsOp.createDirAll dest.dropLast, FsOp.renameF tmp dest] := by
      simp [applyOps, applyOp, List.foldl_append]
    rw [e1, hwrites]
    simp [applyOps, applyOp, fsUpdate]
  refine ⟨hres, hops, hspawn, by rw [hops]; exact hfinal, by simp, ?_⟩
  intro ops1 ops2 hsplit q hq hqd
  have hall : ∀ op ∈ ops1, q ∉ opTouches op := by
    intro op hop
    have hmem : op ∈ (m.uploadLayer tmpName (.ok ()) (fun _ => .ok ()) (.ok ()) (.ok ())
        (.ok ()) n (bs.map .ok)).2.1 := by
      rw [hsplit]; exact List.mem_append_left _ hop
    rw [hops] at hmem
    obtain ⟨rest, hrest⟩ := hq
    have hqtmp : q ≠ tmp := by
      intro hcon
      exact hsep rest (by rw [← hcon, hrest])
    rcases List.mem_cons.mp hmem with hc | hc
    · subst hc; simp [opTouches, hqtmp]
    · rcases List.mem_append.mp hc with hw | ht
      · rcases List.mem_map.mp hw with ⟨b, _, hb⟩
        subst hb; simp [opTouches, hqtmp]
      · simp at ht
        rcases ht with h1 | h1 | h1 <;> subst h1 <;> simp [opTouches, hqtmp, hqd]
  exact applyOps_untouched ops1 fs0 q hall

/-- Witness for C4: uploading the two chunks `[1, 2]` and `[3]` with temp name
`tmp1` into primary root `["p"]` leaves `primary(n)` holding `[1, 2, 3]`. -/
theorem uploadLayer_durability_witness :
    (∀ rest : Path, (⟨["p"], ["l"], ["u"], ["s"]⟩ : Mgr).uploadRoot ++ ["tmp1"] ≠
        (⟨["p"], ["l"], ["u"], ["s"]⟩ : Mgr).primaryRoot ++ rest)
    ∧ applyOps (fun _ => none)
        ((⟨["p"], ["l"], ["u"], ["s"]⟩ : Mgr).uploadLayer "tmp1" (.ok ()) (fun _ => .ok ())
          (.ok ()) (.ok ()) (.ok ()) ⟨0, 0, 0, 0, 0⟩ ([[1, 2], [3]].map .ok)).2.1
        ((⟨["p"], ["l"], ["u"], ["s"]⟩ : Mgr).primaryLayerFilePath ⟨0, 0, 0, 0, 0⟩) =
      some [1, 2, 3] :=
  ⟨fun rest h => by injection h with h1 _; exact absurd h1 (by decide),
    (uploadLayer_durability ⟨["p"], ["l"], ["u"], ["s"]⟩ "tmp1" ⟨0, 0, 0, 0, 0⟩
        [[1, 2], [3]] (fun _ => none)
        (fun rest h => by injection h with h1 _; exact absurd h1 (by decide))).2.2.2.1⟩

/-- The sub-file enumeration `terminus_store::storage::consts::LayerFileEnum`
(external crate), restricted to the variants named by the dictionary in
`server.rs`; the claims quantify only over dictionary members. -/
inductive LayerFileEnum where
  | NodeDictionaryBlocks
  | NodeDictionaryOffsets
  | PredicateDictionaryBlocks
  | PredicateDictionaryOffsets
  | ValueDictionaryTypesPresent
  | ValueDictionaryTypeOffsets
  | ValueDictionaryBlocks
  | ValueDictionaryOffsets
  | NodeValueIdMapBits
  | NodeValueIdMapBitIndexBlocks
  | NodeValueIdMapBitIndexSBlocks
  | PredicateIdMapBits
  | PredicateIdMapBitIndexBlocks
  | PredicateIdMapBitIndexSBlocks
  | PosSubjects
  | PosObjects
  | NegSubjects
  | NegObjects
  | PosSPAdjacencyListNums
  | PosSPAdjacencyListBits
  | PosSPAdjacencyListBitIndexBlocks
  | PosSPAdjacencyListBitIndexSBlocks
  | PosSpOAdjacencyListNums
  | PosSpOAdjacencyListBits
  | PosSpOAdjacencyListBitIndexBlocks
  | PosSpOAdjacencyListBitIndexSBlocks
  | PosOPsAdjacencyListNums
  | PosOPsAdjacencyListBits
  | PosOPsAdjacencyListBitIndexBlocks
  | PosOPsAdjacencyListBitIndexSBlocks
  | PosPredicateWaveletTreeBits
  | PosPredicateWaveletTreeBitIndexBlocks
  | PosPredicateWaveletTreeBitIndexSBlocks
  | NegSPAdjacencyListNums
  | NegSPAdjacencyListBits
  | NegSPAdjacencyListBitIndexBlocks
  | NegSPAdjacencyListBitIndexSBlocks
  | NegSpOAdjacencyListNums
  | NegSpOAdjacencyListBits
  | NegSpOAdjacencyListBitIndexBlocks
  | NegSpOAdjacencyListBitIndexSBlocks
  | NegOPsAdjacencyListNums
  | NegOPsAdjacencyListBits
  | NegOPsAdjacencyListBitIndexBlocks
  | NegOPsAdjacencyListBitIndexSBlocks
  | NegPredicateWaveletTreeBits
  | NegPredicateWaveletTreeBitIndexBlocks
  | NegPredicateWaveletTreeBitIndexSBlocks
  | Parent
deriving DecidableEq, Repr

/-- Embedding of `file_name_to_enum` (server.rs lines 217-308). -/
def fileNameToEnum (s : String) : Option LayerFileEnum :=
  if s = "node_dictionary_blocks" then some .NodeDictionaryBlocks
  else if s = "node_dictionary_offsets" then some .NodeDictionaryOffsets
  else if s = "predicate_dictionary_blocks" then some .PredicateDictionaryBlocks
  else if s = "predicate_dictionary_offsets" then some .PredicateDictionaryOffsets
  else if s = "value_dictionary_types_present" then some .ValueDictionaryTypesPresent
  else if s = "value_dictionary_type_offsets" then some .ValueDictionaryTypeOffsets
  else if s = "value_dictionary_blocks" then some .ValueDictionaryBlocks
  else if s = "value_dictionary_offsets" then some .ValueDictionaryOffsets
  else if s = "node_value_id_map_bits" then some .NodeValueIdMapBits
  else if s = "node_value_id_map_bit_index_blocks" then some .NodeValueIdMapBitIndexBlocks
  else if s = "node_value_id_map_bit_index_sblocks" then some .NodeValueIdMapBitIndexSBlocks
  else if s = "predicate_id_map_bits" then some .PredicateIdMapBits
  else if s = "predicate_id_map_bit_index_blocks" then some .PredicateIdMapBitIndexBlocks
  else if s = "predicate_id_map_bit_index_sblocks" then some .PredicateIdMapBitIndexSBlocks
  else if s = "pos_subjects" then some .PosSubjects
  else if s = "pos_objects" then some .PosObjects
  else if s = "neg_subjects" then some .NegSubjects
  else if s = "neg_objects" then some .NegObjects
  else if s = "pos_sp_adjacency_list_nums" then some .PosSPAdjacencyListNums
  else if s = "pos_sp_adjacency_list_bits" then some .PosSPAdjacencyListBits
  else if s = "pos_sp_adjacency_list_bit_index_blocks" then some .PosSPAdjacencyListBitIndexBlocks
  else if s = "pos_sp_adjacency_list_bit_index_sblocks" then some .PosSPAdjacencyListBitIndexSBlocks
  else if s = "pos_sp_o_adjacency_list_nums" then some .PosSpOAdjacencyListNums
  else if s = "pos_sp_o_adjacency_list_bits" then some .PosSpOAdjacencyListBits
  else if s = "pos_sp_o_adjacency_list_bit_index_blocks" then some .PosSpOAdjacencyListBitIndexBlocks
  else if s = "pos_sp_o_adjacency_list_bit_index_sblocks" then some .PosSpOAdjacencyListBitIndexSBlocks
  else if s = "pos_o_ps_adjacency_list_nums" then some .PosOPsAdjacencyListNums
  else if s = "pos_o_ps_adjacency_list_bits" then some .PosOPsAdjacencyListBits
  else if s = "pos_o_ps_adjacency_list_bit_index_blocks" then some .PosOPsAdjacencyListBitIndexBlocks
  else if s = "pos_o_ps_adjacency_list_bit_index_sblocks" then some .PosOPsAdjacencyListBitIndexSBlocks
  else if s = "pos_predicate_wavelet_tree_bits" then some .PosPredicateWaveletTreeBits
  else if s = "pos_predicate_wavelet_tree_bit_index_blocks" then some .PosPredicateWaveletTreeBitIndexBlocks
  else if s = "pos_predicate_wavelet_tree_bit_index_sblocks" then some .PosPredicateWaveletTreeBitIndexSBlocks
  else if s = "neg_sp_adjacency_list_nums" then some .NegSPAdjacencyListNums
  else if s = "neg_sp_adjacency_list_bits" then some .NegSPAdjacencyListBits
  else if s = "neg_sp_adjacency_list_bit_index_blocks" then some .NegSPAdjacencyListBitIndexBlocks
  else if s = "neg_sp_adjacency_list_bit_index_sblocks" then some .NegSPAdjacencyListBitIndexSBlocks
  else if s = "neg_sp_o_adjacency_list_nums" then some .NegSpOAdjacencyListNums
  else if s = "neg_sp_o_adjacency_list_bits" then some .NegSpOAdjacencyListBits
  else if s = "neg_sp_o_adjacency_list_bit_index_blocks" then some .NegSpOAdjacencyListBitIndexBlocks
  else if s = "neg_sp_o_adjacency_list_bit_index_sblocks" then some .NegSpOAdjacencyListBitIndexSBlocks
  else if s = "neg_o_ps_adjacency_list_nums" then some .NegOPsAdjacencyListNums
  else if s = "neg_o_ps_adjacency_list_bits" then some .NegOPsAdjacencyListBits
  else if s = "neg_o_ps_adjacency_list_bit_index_blocks" then some .NegOPsAdjacencyListBitIndexBlocks
  else if s = "neg_o_ps_adjacency_list_bit_index_sblocks" then some .NegOPsAdjacencyListBitIndexSBlocks
  else if s = "neg_predicate_wavelet_tree_bits" then some .NegPredicateWaveletTreeBits
  else if s = "neg_predicate_wavelet_tree_bit_index_blocks" then some .NegPredicateWaveletTreeBitIndexBlocks
  else if s = "neg_predicate_wavelet_tree_bit_index_sblocks" then some .NegPredicateWaveletTreeBitIndexSBlocks
  else if s = "parent" then some .Parent
  else none

/-- Embedding of `file_enum_to_string` (server.rs lines 310-402). -/
def fileEnumToString (f : LayerFileEnum) : Option String :=
  match f with
  | .NodeDictionaryBlocks => some "node_dictionary_blocks"
  | .NodeDictionaryOffsets => some "node_dictionary_offsets"
  | .PredicateDictionaryBlocks => some "predicate_dictionary_blocks"
  | .PredicateDictionaryOffsets => some "predicate_dictionary_offsets"
  | .ValueDictionaryTypesPresent => some "value_dictionary_types_present"
  | .ValueDictionaryTypeOffsets => some "value_dictionary_type_offsets"
  | .ValueDictionaryBlocks => some "value_dictionary_blocks"
  | .ValueDictionaryOffsets => some "value_dictionary_offsets"
  | .NodeValueIdMapBits => some "node_value_id_map_bits"
  | .NodeValueIdMapBitIndexBlocks => some "node_value_id_map_bit_index_blocks"
  | .NodeValueIdMapBitIndexSBlocks => some "node_value_id_map_bit_index_sblocks"
  | .PredicateIdMapBits => some "predicate_id_map_bits"
  | .PredicateIdMapBitIndexBlocks => some "predicate_id_map_bit_index_blocks"
  | .PredicateIdMapBitIndexSBlocks => some "predicate_id_map_bit_index_sblocks"
  | .PosSubjects => some "pos_subjects"
  | .PosObjects => some "pos_objects"
  | .NegSubjects => some "neg_subjects"
  | .NegObjects => some "neg_objects"
  | .PosSPAdjacencyListNums => some "pos_sp_adjacency_list_nums"
  | .PosSPAdjacencyListBits => some "pos_sp_adjacency_list_bits"
  | .PosSPAdjacencyListBitIndexBlocks => some "pos_sp_adjacency_list_bit_index_blocks"
  | .PosSPAdjacencyListBitIndexSBlocks => some "pos_sp_adjacency_list_bit_index_sblocks"
  | .PosSpOAdjacencyListNums => some "pos_sp_o_adjacency_list_nums"
  | .PosSpOAdjacencyListBits => some "pos_sp_o_adjacency_list_bits"
  | .PosSpOAdjacencyListBitIndexBlocks => some "pos_sp_o_adjacency_list_bit_index_blocks"
  | .PosSpOAdjacencyListBitIndexSBlocks => some "pos_sp_o_adjacency_list_bit_index_sblocks"
  | .PosOPsAdjacencyListNums => some "pos_o_ps_adjacency_list_nums"
  | .PosOPsAdjacencyListBits => some "pos_o_ps_adjacency_list_bits"
  | .PosOPsAdjacencyListBitIndexBlocks => some "pos_o_ps_adjacency_list_bit_index_blocks"
  | .PosOPsAdjacencyListBitIndexSBlocks => some "pos_o_ps_adjacency_list_bit_index_sblocks"
  | .PosPredicateWaveletTreeBits => some "pos_predicate_wavelet_tree_bits"
  | .PosPredicateWaveletTreeBitIndexBlocks => some "pos_predicate_wavelet_tree_bit_index_blocks"
  | .PosPredicateWaveletTreeBitIndexSBlocks => some "pos_predicate_wavelet_tree_bit_index_sblocks"
  | .NegSPAdjacencyListNums => some "neg_sp_adjacency_list_nums"
  | .NegSPAdjacencyListBits => some "neg_sp_adjacency_list_bits"
  | .NegSPAdjacencyListBitIndexBlocks => some "neg_sp_adjacency_list_bit_index_blocks"
  | .NegSPAdjacencyListBitIndexSBlocks => some "neg_sp_adjacency_list_bit_index_sblocks"
  | .NegSpOAdjacencyListNums => some "neg_sp_o_adjacency_list_nums"
  | .NegSpOAdjacencyListBits => some "neg_sp_o_adjacency_list_bits"
  | .NegSpOAdjacencyListBitIndexBlocks => some "neg_sp_o_adjacency_list_bit_index_blocks"
  | .NegSpOAdjacencyListBitIndexSBlocks => some "neg_sp_o_adjacency_list_bit_index_sblocks"
  | .NegOPsAdjacencyListNums => some "neg_o_ps_adjacency_list_nums"
  | .NegOPsAdjacencyListBits => some "neg_o_ps_adjacency_list_bits"
  | .NegOPsAdjacencyListBitIndexBlocks => some "neg_o_ps_adjacency_list_bit_index_blocks"
  | .NegOPsAdjacencyListBitIndexSBlocks => some "neg_o_ps_adjacency_list_bit_index_sblocks"
  | .NegPredicateWaveletTreeBits => some "neg_predicate_wavelet_tree_bits"
  | .NegPredicateWaveletTreeBitIndexBlocks => some "neg_predicate_wavelet_tree_bit_index_blocks"
  | .NegPredicateWaveletTreeBitIndexSBlocks => some "neg_predicate_wavelet_tree_bit_index_sblocks"
  | .Parent => some "parent"

/-- The dictionary of `file_name_to_enum`, as an ordered token/value table. -/
def subfileTable : List (String × LayerFileEnum) :=
  [("node_dictionary_blocks", .NodeDictionaryBlocks),
   ("node_dictionary_offsets", .NodeDictionaryOffsets),
   ("predicate_dictionary_blocks", .PredicateDictionaryBlocks),
   ("predicate_dictionary_offsets", .PredicateDictionaryOffsets),
   ("value_dictionary_types_present", .ValueDictionaryTypesPresent),
   ("value_dictionary_type_offsets", .ValueDictionaryTypeOffsets),
   ("value_dictionary_blocks", .ValueDictionaryBlocks),
   ("value_dictionary_offsets", .ValueDictionaryOffsets),
   ("node_value_id_map_bits", .NodeValueIdMapBits),
   ("node_value_id_map_bit_index_blocks", .NodeValueIdMapBitIndexBlocks),
   ("node_value_id_map_bit_index_sblocks", .NodeValueIdMapBitIndexSBlocks),
   ("predicate_id_map_bits", .PredicateIdMapBits),
   ("predicate_id_map_bit_index_blocks", .PredicateIdMapBitIndexBlocks),
   ("predicate_id_map_bit_index_sblocks", .PredicateIdMapBitIndexSBlocks),
   ("pos_subjects", .PosSubjects),
   ("pos_objects", .PosObjects),
   ("neg_subjects", .NegSubjects),
   ("neg_objects", .NegObjects),
   ("pos_sp_adjacency_list_nums", .PosSPAdjacencyListNums),
   ("pos_sp_adjacency_list_bits", .PosSPAdjacencyListBits),
   ("pos_sp_adjacency_list_bit_index_blocks", .PosSPAdjacencyListBitIndexBlocks),
   ("pos_sp_adjacency_list_bit_index_sblocks", .PosSPAdjacencyListBitIndexSBlocks),
   ("pos_sp_o_adjacency_list_nums", .PosSpOAdjacencyListNums),
   ("pos_sp_o_adjacency_list_bits", .PosSpOAdjacencyListBits),
   ("pos_sp_o_adjacency_list_bit_index_blocks", .PosSpOAdjacencyListBitIndexBlocks),
   ("pos_sp_o_adjacency_list_bit_index_sblocks", .PosSpOAdjacencyListBitIndexSBlocks),
   ("pos_o_ps_adjacency_list_nums", .PosOPsAdjacencyListNums),
   ("pos_o_ps_adjacency_list_bits", .PosOPsAdjacencyListBits),
   ("pos_o_ps_adjacency_list_bit_index_blocks", .PosOPsAdjacencyListBitIndexBlocks),
   ("pos_o_ps_adjacency_list_bit_index_sblocks", .PosOPsAdjacencyListBitIndexSBlocks),
   ("pos_predicate_wavelet_tree_bits", .PosPredicateWaveletTreeBits),
   ("pos_predicate_wavelet_tree_bit_index_blocks", .PosPredicateWaveletTreeBitIndexBlocks),
   ("pos_predicate_wavelet_tree_bit_index_sblocks", .PosPredicateWaveletTreeBitIndexSBlocks),
   ("neg_sp_adjacency_list_nums", .NegSPAdjacencyListNums),
   ("neg_sp_adjacency_list_bits", .NegSPAdjacencyListBits),
   ("neg_sp_adjacency_list_bit_index_blocks", .NegSPAdjacencyListBitIndexBlocks),
   ("neg_sp_adjacency_list_bit_index_sblocks", .NegSPAdjacencyListBitIndexSBlocks),
   ("neg_sp_o_adjacency_list_nums", .NegSpOAdjacencyListNums),
   ("neg_sp_o_adjacency_list_bits", .NegSpOAdjacencyListBits),
   ("neg_sp_o_adjacency_list_bit_index_blocks", .NegSpOAdjacencyListBitIndexBlocks),
   ("neg_sp_o_adjacency_list_bit_index_sblocks", .NegSpOAdjacencyListBitIndexSBlocks),
   ("neg_o_ps_adjacency_list_nums", .NegOPsAdjacencyListNums),
   ("neg_o_ps_adjacency_list_bits", .NegOPsAdjacencyListBits),
   ("neg_o_ps_adjacency_list_bit_index_blocks", .NegOPsAdjacencyListBitIndexBlocks),
   ("neg_o_ps_adjacency_list_bit_index_sblocks", .NegOPsAdjacencyListBitIndexSBlocks),
   ("neg_predicate_wavelet_tree_bits", .NegPredicateWaveletTreeBits),
   ("neg_predicate_wavelet_tree_bit_index_blocks", .NegPredicateWaveletTreeBitIndexBlocks),
   ("neg_predicate_wavelet_tree_bit_index_sblocks", .NegPredicateWaveletTreeBitIndexSBlocks),
   ("parent", .Parent)]

/-- Evaluate an ordered token table the way the `match` in
`file_name_to_enum` does: first hit wins. -/
def lookupChain : List (String × LayerFileEnum) → String → Option LayerFileEnum
  | [], _ => none
  | (k, v) :: rest, s => if s = k then some v else lookupChain rest s

/-- `file_name_to_enum` is exactly the chain lookup of its dictionary. -/
theorem fileNameToEnum_eq_chain : ∀ s, fileNameToEnum s = lookupChain subfileTable s :=
  fun _ => rfl

/-- A successful chain lookup returns a pair of the table. -/
theorem lookupChain_mem : ∀ (tbl : List (String × LayerFileEnum)) (s : String)
    (e : LayerFileEnum), lookupChain tbl s = some e → (s, e) ∈ tbl := by
  intro tbl
  induction tbl with
  | nil => intro s e h; exact Option.noConfusion h
  | cons p rest ih =>
    obtain ⟨k, v⟩ := p
    intro s e h
    by_cases hs : s = k
    · rw [lookupChain, if_pos hs] at h
      injection h with he
      subst he; subst hs
      exact List.mem_cons_self _ _
    · rw [lookupChain, if_neg hs] at h
      exact List.mem_cons_of_mem _ (ih s e h)

/-- Every table entry encodes back to its own token. -/
theorem subfileTable_sound : ∀ p ∈ subfileTable, fileEnumToString p.2 = some p.1 := by
  decide

/-- C9: the sub-file name mapping is a static bijection between dictionary
tokens and `LayerFileEnum` values: decoding the encoding of any dictionary
value gives that value back, and any token that decodes to a value is exactly
that value's encoding. -/
theorem subfile_dictionary_bijective :
    (∀ e : LayerFileEnum, ∃ s, fileEnumToString e = some s ∧ fileNameToEnum s = some e)
    ∧ (∀ (s : String) (e : LayerFileEnum),
        fileNameToEnum s = some e → fileEnumToString e = some s) := by
  constructor
  · intro e
    cases e <;> exact ⟨_, rfl, by decide⟩
  · intro s e h
    have hm := lookupChain_mem subfileTable s e (by rw [← fileNameToEnum_eq_chain s]; exact h)
    exact subfileTable_sound (s, e) hm

/-- Witness for C9: the token `parent` decodes to `Parent`, whose encoding is
`parent` again. -/
theorem subfile_dictionary_bijective_witness :
    fileNameToEnum "parent" = some LayerFileEnum.Parent
    ∧ fileEnumToString LayerFileEnum.Parent = some "parent" :=
  ⟨by decide, subfile_dictionary_bijective.2 "parent" LayerFileEnum.Parent (by decide)⟩

/-- Modelled from the spec: the external `ArchiveHeader` contract (spec
sections 3 and 6) — a parsed header knows how many bytes of the stream it
consumed and maps each sub-file tag to an optional half-open byte interval
measured from the end of the header. -/
structure ArchiveHeader where
  len : Nat
  rangeFor : LayerFileEnum → Option (Nat × Nat)

/-- Modelled from the spec: `ArchiveHeader::parse_from_reader` consumes a
prefix of the stream and advances the reader past the header; parse failures
are surfaced.  `parseFn` is the external parser applied to the bytes at the
current position. -/
def parseFromReader (parseFn : Bytes → Except IoErr ArchiveHeader) (r : Reader) :
    Except IoErr (ArchiveHeader × Reader) :=
  (parseFn (r.bytes.drop r.pos)).map fun h => (h, ⟨r.bytes, r.pos + h.len⟩)

/-- `File::stream_position`. -/
def streamPosition (r : Reader) : Nat := r.pos

/-- `File::seek(SeekFrom::Current(k))` for a non-negative `k`. -/
def seekCurrent (r : Reader) (k : Nat) : Reader := ⟨r.bytes, r.pos + k⟩

/-- The bytes produced by streaming `reader.take(k)` to the end: at most `k`
bytes starting at the current position. -/
def takeBytes (r : Reader) (k : Nat) : Bytes := (r.bytes.drop r.pos).take k

/-- Embedding of `get_layer_header` (manager.rs lines 206-218): resolve the
layer through `get_layer_reader`, then parse the archive header from the
reader, surfacing parse errors; the returned reader sits just past the
header. -/
def Mgr.getLayerHeader (m : Mgr) (env : Path → FileEnv)
    (parseFn : Bytes → Except IoErr ArchiveHeader) (n : LayerName) :
    Except IoErr (Option (ArchiveHeader × Reader)) × ReadEffects :=
  match m.getLayerReader env n with
  | (.ok (some (_sz, r)), eff) =>
    (match parseFromReader parseFn r with
     | .ok hr => (.ok (some hr), eff)
     | .error e => (.error e, eff))
  | (.ok none, eff) => (.ok none, eff)
  | (.error e, eff) => (.error e, eff)

/-- Embedding of `get_layer_file_range` (manager.rs lines 220-234): parse the
header, take the stream position after the parse as the offset, and shift the
header-relative range by it; `Absent` when the layer or the tag is absent. -/
def Mgr.getLayerFileRange (m : Mgr) (env : Path → FileEnv)
    (parseFn : Bytes → Except IoErr ArchiveHeader) (n : LayerName)
    (f : LayerFileEnum) : Except IoErr (Option (Nat × Nat)) × ReadEffects :=
  match m.getLayerHeader env parseFn n with
  | (.ok (some (h, r)), eff) =>
    (.ok ((h.rangeFor f).map fun p => (p.1 + streamPosition r, p.2 + streamPosition r)), eff)
  | (.ok none, eff) => (.ok none, eff)
  | (.error e, eff) => (.error e, eff)

/-- Embedding of `get_layer_file` (manager.rs lines 236-250): parse the
header; if the tag is present, seek forward by `range.start` from the
post-header position and stream `range.end - range.start` bytes; `Absent`
when the layer or the tag is absent. -/
def Mgr.getLayerFile (m : Mgr) (env : Path → FileEnv)
    (parseFn : Bytes → Except IoErr ArchiveHeader) (n : LayerName)
    (f : LayerFileEnum) : Except IoErr (Option (Nat × Bytes)) × ReadEffects :=
  match m.getLayerHeader env parseFn n with
  | (.ok (some (h, r)), eff) =>
    (match h.rangeFor f with
     | some p =>
       (.ok (some (p.2 - p.1, takeBytes (seekCurrent r p.1) (p.2 - p.1))), eff)
     | none => (.ok none, eff))
  | (.ok none, eff) => (.ok none, eff)
  | (.error e, eff) => (.error e, eff)

/-- The slice `[a, b)` of a byte list. -/
def layerSlice (bs : Bytes) (a b : Nat) : Bytes := (bs.drop a).take (b - a)

/-- C5: for a layer whose reader holds bytes `bs` and whose parsed header `h`
contains tag `f` with well-formed range `[s, e)` (nonempty, inside the layer
body), `get_layer_file_range` returns the absolute interval
`[s + h.len, e + h.len)` with `a < b ≤ total size`, and `get_layer_file`
streams exactly the slice `[a, b)` of the layer bytes, of length `b - a`;
when the header lacks the tag, both return `Absent`. -/
theorem getLayerFile_range_consistency (m : Mgr) (env : Path → FileEnv)
    (parseFn : Bytes → Except IoErr ArchiveHeader) (n : LayerName)
    (f : LayerFileEnum) (sz : Nat) (bs : Bytes) (h : ArchiveHeader)
    (eff : ReadEffects)
    (hread : m.getLayerReader env n = (.ok (some (sz, ⟨bs, 0⟩)), eff))
    (hparse : parseFn bs = .ok h) :
    (∀ s e, h.rangeFor f = some (s, e) → s < e → h.len + e ≤ bs.length →
      (m.getLayerFileRange env parseFn n f).1 = .ok (some (s + h.len, e + h.len))
      ∧ s + h.len < e + h.len
      ∧ e + h.len ≤ bs.length
      ∧ (m.getLayerFile env parseFn n f).1 =
          .ok (some (e - s, layerSlice bs (s + h.len) (e + h.len)))
      ∧ (layerSlice bs (s + h.len) (e + h.len)).length = (e + h.len) - (s + h.len))
    ∧ (h.rangeFor f = none →
        (m.getLayerFileRange env parseFn n f).1 = .ok none
        ∧ (m.getLayerFile env parseFn n f).1 = .ok none) := by
  have hparse0 : parseFn (List.drop 0 bs) = .ok h := by simpa using hparse
  have hhdr : m.getLayerHeader env parseFn n =
      (.ok (some (h, ⟨bs, 0 + h.len⟩)), eff) := by
    simp [Mgr.getLayerHeader, hread, parseFromReader, hparse, Except.map]
  constructor
  · intro s e hr hse hin
    have hrange : (m.getLayerFileRange env parseFn n f).1 = .ok (some (s + h.len, e + h.len)) := by
      simp [Mgr.getLayerFileRange, hhdr, hr, streamPosition]
    have hfile : (m.getLayerFile env parseFn n f).1 =
        .ok (some (e - s, (bs.drop (h.len + s)).take (e - s))) := by
      simp [Mgr.getLayerFile, hhdr, hr, seekCurrent, takeBytes]
    refine ⟨hrange, by omega, by omega, ?_, ?_⟩
    · rw [hfile]
      have : layerSlice bs (s + h.len) (e + h.len) = (bs.drop (h.len + s)).take (e - s) := by
        unfold layerSlice
        have h1 : s + h.len = h.len + s := by omega
        have h2 : e + h.len - (s + h.len) = e - s := by omega
        rw [h2, h1]
      rw [this]
    · unfold layerSlice
      rw [List.length_take, List.length_drop]
      omega
  · intro hr
    constructor
    · simp [Mgr.getLayerFileRange, hhdr, hr]
    · simp [Mgr.getLayerFile, hhdr, hr]

/-- Witness for C5: a 6-byte layer whose header occupies 2 bytes and maps
`Parent` to the header-relative range `[1, 3)`: the absolute range is
`[3, 5)` and the streamed bytes are the slice `[7, 5]`. -/
theorem getLayerFile_range_consistency_witness :
    ((⟨["p"], ["l"], ["u"], ["s"]⟩ : Mgr).getLayerFileRange
        (fun _ => ⟨.ok 6, .ok [9, 9, 3, 7, 5, 2]⟩)
        (fun b => if b = [9, 9, 3, 7, 5, 2] then
          .ok ⟨2, fun t => if t = LayerFileEnum.Parent then some (1, 3) else none⟩
          else .error .other)
        ⟨0, 0, 0, 0, 0⟩ LayerFileEnum.Parent).1 = .ok (some (3, 5))
    ∧ ((⟨["p"], ["l"], ["u"], ["s"]⟩ : Mgr).getLayerFile
        (fun _ => ⟨.ok 6, .ok [9, 9, 3, 7, 5, 2]⟩)
        (fun b => if b = [9, 9, 3, 7, 5, 2] then
          .ok ⟨2, fun t => if t = LayerFileEnum.Parent then some (1, 3) else none⟩
          else .error .other)
        ⟨0, 0, 0, 0, 0⟩ LayerFileEnum.Parent).1 = .ok (some (2, [7, 5])) := by
  have happ := (getLayerFile_range_consistency (⟨["p"], ["l"], ["u"], ["s"]⟩ : Mgr)
    (fun _ => ⟨.ok 6, .ok [9, 9, 3, 7, 5, 2]⟩)
    (fun b => if b = [9, 9, 3, 7, 5, 2] then
      .ok ⟨2, fun t => if t = LayerFileEnum.Parent then some (1, 3) else none⟩
      else .error .other)
    ⟨0, 0, 0, 0, 0⟩ LayerFileEnum.Parent 6 [9, 9, 3, 7, 5, 2]
    ⟨2, fun t => if t = LayerFileEnum.Parent then some (1, 3) else none⟩
    ⟨[.localT], [], []⟩ rfl (by simp)).1 1 3 (by simp) (by omega) (by simp)
  exact ⟨happ.1, happ.2.2.2.1⟩

/-- Outcome of the admission check of `try_copy_layer`: return without
copying, or proceed into the copy with the name inserted. -/
inductive AdmissionDecision where
  | skip
  | proceed
deriving DecidableEq, Repr

/-- The admission check of `try_copy_layer` (manager.rs lines 255-268),
executed atomically under the work-set mutex: if the name is already in the
work set, return; else if `local_layer_file_exists(..).unwrap_or(true)` (the
local file exists, or the existence check failed), return; else insert the
name and proceed. -/
def admissionCheck (n : LayerName) (ws : Finset LayerName)
    (le : Except IoErr Bool) : AdmissionDecision × Finset LayerName :=
  if n ∈ ws then (.skip, ws)
  else if (match le with | .ok b => b | .error _ => true) then (.skip, ws)
  else (.proceed, insert n ws)

/-- Global promotion state for one fixed layer name: how many spawned
`try_copy_layer` tasks for it have not yet reached the admission check, how
many are currently past it (copying), and the work set.  Tasks are counted
rather than named because they are interchangeable. -/
structure PromState where
  pending : Nat
  copying : Nat
  ws : Finset LayerName

/-- Effect of one task running its admission check with local-existence
outcome `le`: on skip it finishes, on proceed it moves into the copying
phase. -/
def admitStep (n : LayerName) (s : PromState) (le : Except IoErr Bool) : PromState :=
  match admissionCheck n s.ws le with
  | (.skip, ws2) => ⟨s.pending - 1, s.copying, ws2⟩
  | (.proceed, ws2) => ⟨s.pending - 1, s.copying + 1, ws2⟩

/-- Interleaved execution of the promotion tasks for name `n`: a pending task
runs the (atomic) admission check, or a copying task completes its attempt —
successfully or not — and removes `n` from the work set (manager.rs lines
294-296). -/
inductive PromStep (n : LayerName) : PromState → PromState → Prop
  | admission (s : PromState) (le : Except IoErr Bool) (h : 0 < s.pending) :
      PromStep n s (admitStep n s le)
  | finish (s : PromState) (h : 0 < s.copying) :
      PromStep n s ⟨s.pending, s.copying - 1, s.ws.erase n⟩

/-- One promotion step preserves the invariant that at most one task is past
admission and that `n` sits in the work set exactly while one is. -/
theorem promStep_preserves (n : LayerName) (s s2 : PromState)
    (hinv : s.copying ≤ 1 ∧ (n ∈ s.ws ↔ s.copying = 1))
    (hstep : PromStep n s s2) :
    s2.copying ≤ 1 ∧ (n ∈ s2.ws ↔ s2.copying = 1) := by
  obtain ⟨hle, hiff⟩ := hinv
  cases hstep with
  | admission le hp =>
    by_cases hmem : n ∈ s.ws
    · have hA : admissionCheck n s.ws le = (.skip, s.ws) := by
        simp [admissionCheck, hmem]
      unfold admitStep
      rw [hA]
      exact ⟨hle, hiff⟩
    · by_cases hloc : (match le with | .ok b => b | .error _ => true) = true
      · have hA : admissionCheck n s.ws le = (.skip, s.ws) := by
          simp [admissionCheck, hmem, hloc]
        unfold admitStep
        rw [hA]
        exact ⟨hle, hiff⟩
      · have hA : admissionCheck n s.ws le = (.proceed, insert n s.ws) := by
          simp [admissionCheck, hmem, hloc]
        have hc0 : s.copying = 0 := by
          rcases Nat.lt_or_ge s.copying 1 with h1 | h1
          · omega
          · have h2 : s.copying = 1 := by omega
            exact absurd (hiff.mpr h2) hmem
        unfold admitStep
        rw [hA]
        refine ⟨by simp [hc0], ?_⟩
        simp [Finset.mem_insert, hc0]
  | finish hp =>
    refine ⟨by simp; omega, ?_⟩
    simp only [Finset.not_mem_erase, false_iff]
    omega

/-- C1: for any layer name, in every state reachable from an initial state
with no task past admission and the name outside the work set, at most one
`try_copy_layer` body for it is past the admission check; moreover the
admission check itself returns `skip` — without inserting or copying —
whenever the name is already in the work set, whenever the local-existence
check reports `true`, and whenever the local-existence check fails. -/
theorem promotion_at_most_one (n : LayerName) (init s : PromState)
    (hc : init.copying = 0) (hw : n ∉ init.ws)
    (hr : Relation.ReflTransGen (PromStep n) init s) :
    s.copying ≤ 1
    ∧ (∀ (ws : Finset LayerName) (le : Except IoErr Bool), n ∈ ws →
        admissionCheck n ws le = (.skip, ws))
    ∧ (∀ ws : Finset LayerName, admissionCheck n ws (.ok true) = (.skip, ws))
    ∧ (∀ (ws : Finset LayerName) (e : IoErr),
        admissionCheck n ws (.error e) = (.skip, ws)) := by
  have hinv : s.copying ≤ 1 ∧ (n ∈ s.ws ↔ s.copying = 1) := by
    induction hr with
    | refl =>
      refine ⟨by omega, ?_⟩
      rw [hc]
      simp [hw]
    | tail _h1 h2 ih => exact promStep_preserves n _ _ ih h2
  refine ⟨hinv.1, ?_, ?_, ?_⟩
  · intro ws le hmem
    simp [admissionCheck, hmem]
  · intro ws
    by_cases hmem : n ∈ ws <;> simp [admissionCheck, hmem]
  · intro ws e
    by_cases hmem : n ∈ ws <;> simp [admissionCheck, hmem]

/-- Witness for C1: from three pending tasks and an empty work set, after one
admitted task (local file absent) the number of tasks past admission is 1, so
within the bound. -/
theorem promotion_at_most_one_witness :
    (⟨3, 0, ∅⟩ : PromState).copying = 0
    ∧ (admitStep ⟨0, 0, 0, 0, 0⟩ ⟨3, 0, ∅⟩ (.ok false)).copying ≤ 1 :=
  ⟨rfl,
    (promotion_at_most_one ⟨0, 0, 0, 0, 0⟩ ⟨3, 0, ∅⟩ _ rfl (by simp)
        (Relation.ReflTransGen.single
          (PromStep.admission ⟨3, 0, ∅⟩ (.ok false) (by decide)))).1⟩

/-- The await points of `try_copy_layer` at which the spawned task can be
dropped (cancelled) or at which a panic unwinds it: acquiring the work-set
mutex, the local-existence check, the copy to scratch, the directory
creation, the rename, and re-acquiring the mutex for removal. -/
inductive CancelAt where
  | lockA
  | existsA
  | copyA
  | dirA
  | renameA
  | relockA
deriving DecidableEq, Repr

/-- One complete execution of `try_copy_layer` (manager.rs lines 253-301) for
name `n`, starting from work set `ws`, with the given outcomes for the
local-existence check, the copy, the directory creation and the rename, and
optionally abandoned (cancelled or panicking) at one await point; returns the
final work set.  The removal at lines 294-296 is plain straight-line code
with no drop guard, so an execution abandoned after the insertion never runs
it. -/
def tryCopyLayerRun (n : LayerName) (ws : Finset LayerName)
    (le : Except IoErr Bool) (copyRes dirRes _renameRes : Except IoErr Unit)
    (cancel : Option CancelAt) : Finset LayerName :=
  if cancel = some .lockA then ws
  else if cancel = some .existsA then ws
  else
    match admissionCheck n ws le with
    | (.skip, ws2) => ws2
    | (.proceed, ws1) =>
      if cancel = some .copyA then ws1
      else
        match copyRes with
        | .error _ => if cancel = some .relockA then ws1 else ws1.erase n
        | .ok () =>
          if cancel = some .dirA then ws1
          else
            match dirRes with
            | .error _ => if cancel = some .relockA then ws1 else ws1.erase n
            | .ok () =>
              if cancel = some .renameA then ws1
              else if cancel = some .relockA then ws1 else ws1.erase n

/-- C7 (divergence witness): a `try_copy_layer` execution abandoned at the
copy await point — after admission inserted the name — leaves the name in the
work set forever, contradicting release on every exit path; by contrast every
run that is not abandoned does remove the name, whatever the copy, directory
and rename outcomes. -/
theorem tryCopyLayer_workset_leak :
    (⟨0, 0, 0, 0, 0⟩ : LayerName) ∈
      tryCopyLayerRun ⟨0, 0, 0, 0, 0⟩ ∅ (.ok false) (.ok ()) (.ok ()) (.ok ())
        (some .copyA)
    ∧ (∀ copyRes dirRes renameRes : Except IoErr Unit,
        (⟨0, 0, 0, 0, 0⟩ : LayerName) ∉
          tryCopyLayerRun ⟨0, 0, 0, 0, 0⟩ ∅ (.ok false) copyRes dirRes renameRes none) := by
  constructor
  · decide
  · intro copyRes dirRes renameRes
    rcases copyRes with e1 | u1
    · simp [tryCopyLayerRun, admissionCheck]
    · cases u1
      rcases dirRes with e2 | u2
      · simp [tryCopyLayerRun, admissionCheck]
      · cases u2
        simp [tryCopyLayerRun, admissionCheck]

/-- The literal `/cache/` route head of `RE_CACHE`. -/
def cacheHead : List Char := ['/', 'c', 'a', 'c', 'h', 'e', '/']

/-- The literal `/layer/` route head of `RE_LAYER`. -/
def layerHead : List Char := ['/', 'l', 'a', 'y', 'e', 'r', '/']

/-- The literal `/file/` route head of `RE_FILE`. -/
def fileHead : List Char := ['/', 'f', 'i', 'l', 'e', '/']

/-- The literal `/range/` route head of `RE_FILE_RANGE`. -/
def rangeHead : List Char := ['/', 'r', 'a', 'n', 'g', 'e', '/']

/-- Strip a literal head from a character list, or fail. -/
def stripHead : List Char → List Char → Option (List Char)
  | [], cs => some cs
  | _ :: _, [] => none
  | p :: ps, c :: cs => if c = p then stripHead ps cs else none

/-- The character class `[0-9a-f]` of the route regexes. -/
def isHexLowerC (c : Char) : Bool :=
  ('0' ≤ c && c ≤ '9') || ('a' ≤ c && c ≤ 'f')

/-- The regex word class `\w`, `[0-9A-Za-z_]`. -/
def isWordC (c : Char) : Bool := c.isAlphanum || c = '_'

/-- `([0-9a-f]{40})` matched against the whole remainder. -/
def hex40 (cs : List Char) : Bool :=
  (cs.length == 40) && cs.all isHexLowerC

/-- Match `([0-9a-f]{40})/(\w+)` anchored at both ends: the first 40
characters are the name, then a slash, then a nonempty word token. -/
def splitFileUri (cs : List Char) : Option (List Char × List Char) :=
  match cs.drop 40 with
  | '/' :: w =>
    if hex40 (cs.take 40) && !w.isEmpty && w.all isWordC then
      some (cs.take 40, w)
    else none
  | _ => none

/-- The parsed resource of a request path (server.rs lines 34-39). -/
inductive ResourceSpec where
  | cacheR (n : LayerName)
  | layerR (n : LayerName)
  | layerFileR (n : LayerName) (f : LayerFileEnum)
  | layerFileRangeR (n : LayerName) (f : LayerFileEnum)

/-- The parse failures of `uri_to_spec` (server.rs lines 41-46). -/
inductive SpecParseError where
  | unknownPath
  | badLayerName
  | unknownLayerFile
deriving DecidableEq, Repr

/-- Embedding of `uri_to_spec` (server.rs lines 48-91): try the `/cache/`,
`/layer/`, `/file/` and `/range/` routes in order (their heads are mutually
exclusive); on `/file/` and `/range/`, parse the layer name first (failure is
`BadLayerName`) and then look the token up in the dictionary (an unknown
token is `UnknownLayerFile`); anything else is `UnknownPath`. -/
def uriToSpec (cs : List Char) : Except SpecParseError ResourceSpec :=
  match stripHead cacheHead cs with
  | some rest =>
    if hex40 rest then
      match stringToName rest with
      | .ok l => .ok (.cacheR l)
      | .error _ => .error .badLayerName
    else .error .unknownPath
  | none =>
    match stripHead layerHead cs with
    | some rest =>
      if hex40 rest then
        match stringToName rest with
        | .ok l => .ok (.layerR l)
        | .error _ => .error .badLayerName
      else .error .unknownPath
    | none =>
      match stripHead fileHead cs with
      | some rest =>
        match splitFileUri rest with
        | some (name, w) =>
          match stringToName name with
          | .ok l =>
            match fileNameToEnum ⟨w⟩ with
            | some f => .ok (.layerFileR l f)
            | none => .error .unknownLayerFile
          | .error _ => .error .badLayerName
        | none => .error .unknownPath
      | none =>
        match stripHead rangeHead cs with
        | some rest =>
          match splitFileUri rest with
          | some (name, w) =>
            match stringToName name with
            | .ok l =>
              match fileNameToEnum ⟨w⟩ with
              | some f => .ok (.layerFileRangeR l f)
              | none => .error .unknownLayerFile
            | .error _ => .error .badLayerName
          | none => .error .unknownPath
        | none => .error .unknownPath

/-- The manager outcomes a request handler can observe, one per route (only
the shape of the outcome matters for the response status). -/
structure ServerEnv where
  layerRes : LayerName → Except IoErr (Option Nat)
  fileRes : LayerName → LayerFileEnum → Except IoErr (Option Nat)
  rangeRes : LayerName → LayerFileEnum → Except IoErr (Option (Nat × Nat))
  uploadRes : LayerName → Except Unit Unit

/-- The response status of `Service::get` (server.rs lines 121-172): 200 on a
hit, 404 on `Ok(None)`, 500 on a manager error, 500 for a GET on the cache
route (`Unimplemented`), and 500 for every parse error. -/
def serveGet (env : ServerEnv) (uri : List Char) : Nat :=
  match uriToSpec uri with
  | .ok (.layerR l) =>
    match env.layerRes l with
    | .ok (some _) => 200
    | .ok none => 404
    | .error _ => 500
  | .ok (.layerFileR l f) =>
    match env.fileRes l f with
    | .ok (some _) => 200
    | .ok none => 404
    | .error _ => 500
  | .ok (.layerFileRangeR l f) =>
    match env.rangeRes l f with
    | .ok (some _) => 200
    | .ok none => 404
    | .error _ => 500
  | .ok (.cacheR _) => 500
  | .error _ => 500

/-- The response status of `Service::post` (server.rs lines 173-203): 204 for
the cache route, 204/500 for an upload, 500 for the other routes
(`Unimplemented`) and for every parse error. -/
def servePost (env : ServerEnv) (uri : List Char) : Nat :=
  match uriToSpec uri with
  | .ok (.cacheR _) => 204
  | .ok (.layerR l) =>
    match env.uploadRes l with
    | .ok _ => 204
    | .error _ => 500
  | .ok (.layerFileR _ _) => 500
  | .ok (.layerFileRangeR _ _) => 500
  | .error _ => 500

/-- An environment in which every layer is absent and uploads succeed. -/
def cexEnv : ServerEnv :=
  ⟨fun _ => .ok none, fun _ _ => .ok none, fun _ _ => .ok none, fun _ => .ok ()⟩

/-- A `/file/` request path naming the unknown sub-file token `bogus`. -/
def cexUri : List Char :=
  fileHead ++ List.replicate 40 'a' ++ '/' :: ['b', 'o', 'g', 'u', 's']

/-- Counterexample to C8 as stated: `bogus` is not in the sub-file
dictionary, yet the GET response status is 500, not 404. -/
theorem unknown_subfile_not_404 :
    fileNameToEnum ⟨['b', 'o', 'g', 'u', 's']⟩ = none
    ∧ serveGet cexEnv cexUri = 500
    ∧ serveGet cexEnv cexUri ≠ 404 := by
  have h500 : serveGet cexEnv cexUri = 500 := by decide
  exact ⟨by decide, h500, by rw [h500]; decide⟩

/-- C8 (amended): every request path naming a sub-file token absent from the
dictionary — on the `/file/` or `/range/` route, by GET or by POST — gets
response status 500 (never 404): the parse error is mapped to 500 by both
handlers. -/
theorem unknown_subfile_yields_500 (env : ServerEnv) (name w : List Char)
    (hx : hex40 name = true) (hw : w ≠ []) (hwc : w.all isWordC = true)
    (hu : fileNameToEnum ⟨w⟩ = none) :
    serveGet env (fileHead ++ (name ++ '/' :: w)) = 500
    ∧ servePost env (fileHead ++ (name ++ '/' :: w)) = 500
    ∧ serveGet env (rangeHead ++ (name ++ '/' :: w)) = 500
    ∧ servePost env (rangeHead ++ (name ++ '/' :: w)) = 500 := by
  have hlen : name.length = 40 := by
    have hx2 := hx
    simp [hex40] at hx2
    exact hx2.1
  have hwe : w.isEmpty = false := by
    cases w with
    | nil => exact absurd rfl hw
    | cons c cs => rfl
  have hsplit : splitFileUri (name ++ '/' :: w) = some (name, w) := by
    unfold splitFileUri
    rw [List.drop_append_of_le_length (by omega),
      List.drop_eq_nil_of_le (by omega),
      List.take_append_of_le_length (by omega),
      List.take_of_length_le (by omega)]
    simp [hx, hwe, hwc]
  have hcf : stripHead cacheHead (fileHead ++ (name ++ '/' :: w)) = none := rfl
  have hlf : stripHead layerHead (fileHead ++ (name ++ '/' :: w)) = none := rfl
  have hff : stripHead fileHead (fileHead ++ (name ++ '/' :: w)) =
      some (name ++ '/' :: w) := rfl
  have hcr : stripHead cacheHead (rangeHead ++ (name ++ '/' :: w)) = none := rfl
  have hlr : stripHead layerHead (rangeHead ++ (name ++ '/' :: w)) = none := rfl
  have hfr : stripHead fileHead (rangeHead ++ (name ++ '/' :: w)) = none := rfl
  have hrr : stripHead rangeHead (rangeHead ++ (name ++ '/' :: w)) =
      some (name ++ '/' :: w) := rfl
  have hparseF : uriToSpec (fileHead ++ (name ++ '/' :: w)) = .error .unknownLayerFile
      ∨ uriToSpec (fileHead ++ (name ++ '/' :: w)) = .error .badLayerName := by
    rcases hsn : stringToName name with u | l
    · right
      simp [uriToSpec, hcf, hlf, hff, hsplit, hsn]
    · left
      simp [uriToSpec, hcf, hlf, hff, hsplit, hsn, hu]
  have hparseR : uriToSpec (rangeHead ++ (name ++ '/' :: w)) = .error .unknownLayerFile
      ∨ uriToSpec (rangeHead ++ (name ++ '/' :: w)) = .error .badLayerName := by
    rcases hsn : stringToName name with u | l
    · right
      simp [uriToSpec, hcr, hlr, hfr, hrr, hsplit, hsn]
    · left
      simp [uriToSpec, hcr, hlr, hfr, hrr, hsplit, hsn, hu]
  refine ⟨?_, ?_, ?_, ?_⟩
  · rcases hparseF with h | h <;> simp [serveGet, h]
  · rcases hparseF with h | h <;> simp [servePost, h]
  · rcases hparseR with h | h <;> simp [serveGet, h]
  · rcases hparseR with h | h <;> simp [servePost, h]

/-- Witness for C8 (amended): the unknown token `zz` after a valid 40-hex
name gets a 500 from the GET handler on the `/file/` route. -/
theorem unknown_subfile_yields_500_witness :
    hex40 (List.replicate 40 'a') = true
    ∧ fileNameToEnum ⟨['z', 'z']⟩ = none
    ∧ serveGet cexEnv (fileHead ++ (List.replicate 40 'a' ++ '/' :: ['z', 'z'])) = 500 :=
  ⟨by decide, by decide,
    (unknown_subfile_yields_500 cexEnv (List.replicate 40 'a') ['z', 'z']
        (by decide) (by decide) (by decide) (by decide)).1⟩

end LayerService
